import Mathlib

/-
Verification of the kaa-toolbox coordination layer (signal.py, policy.py,
asyncio.py) against its natural-language specification.  The Python code is
shallowly embedded: object identities (functools partial tokens, underlying
callables, Signal objects, tasks) are modelled as natural numbers, wall-clock
and monotonic times as integers or rationals, and the small state machines as
explicit state-passing functions.
-/

namespace KaaToolbox

/-! ## Signal: callback registry (signal.py)

A registration produced by Signal._connect.  In the source a registration is
a functools partial object wrapping the user callable with bound positional
and keyword arguments, carrying a _signal_once flag.  `tok` is the identity
of the partial object itself (the token returned by connect), `fn` the
identity of the wrapped callable (the partial .func attribute). -/
structure CB where
  tok : Nat
  fn : Nat
  args : List Nat
  kwargs : List (Nat × Nat)
  once : Bool
deriving DecidableEq, Repr

/-- What is passed to Signal.disconnect: either the plain callable
originally connected, or the partial token returned by connect.  A plain
callable and a partial object are distinct Python objects, so equality
between the two kinds never holds. -/
inductive CBTarget where
  | fnRef (fn : Nat)
  | tokRef (tok : Nat)
deriving DecidableEq, Repr

/-- The match test of Signal._disconnect:
(cb.func == callback and (noargs or (args, kwargs) == (cbargs, cbkwargs)))
or cb == callback.  Partial equality in Python is identity, so the second
disjunct fires exactly when the argument is the token of this registration. -/
def cbMatches (target : CBTarget) (args : List Nat) (kwargs : List (Nat × Nat))
    (noargs : Bool) (cb : CB) : Bool :=
  match target with
  | CBTarget.fnRef f => cb.fn == f && (noargs || (args == cb.args && kwargs == cb.kwargs))
  | CBTarget.tokRef t => cb.tok == t

/-- Signal._disconnect.  Builds the list of survivors, computes
num_removed = len(new_callbacks) - len(self._callbacks) exactly as the
source does (note the operand order), installs the new list when
num_removed is nonzero, and returns num_removed. -/
def signalDisconnect (cbs : List CB) (target : CBTarget) (args : List Nat)
    (kwargs : List (Nat × Nat)) : List CB × Int :=
  let noargs := args.isEmpty && kwargs.isEmpty
  let newCallbacks := cbs.filter (fun cb => ! cbMatches target args kwargs noargs cb)
  let numRemoved : Int := (newCallbacks.length : Int) - (cbs.length : Int)
  if numRemoved = 0 then (cbs, numRemoved) else (newCallbacks, numRemoved)

/-- Signal._connect list update: insert at the end (pos = -1) or at the
front (pos = 0, the connect_first variants). -/
def signalConnect (cbs : List CB) (cb : CB) (atFront : Bool) : List CB :=
  if atFront then cb :: cbs else cbs ++ [cb]

/-! ### Emission

A callback body is modelled as a list of primitive actions against the same
signal: disconnect, connect, or a re-entrant emit.  The bodies are supplied
by an environment `prog` keyed by registration token.  An emission event is
recorded as (token, depth) where depth is the emit nesting level, so the
invocations of the current pass are exactly the events at the current
depth. -/
inductive Act where
  | disc (target : CBTarget) (args : List Nat) (kwargs : List (Nat × Nat))
  | conn (cb : CB) (atFront : Bool)
  | emitAct
deriving DecidableEq, Repr

/-- An invocation event: the token invoked and the emit nesting depth. -/
abbrev Ev := Nat × Nat

/-- Run the actions of one callback body.  `emitF` performs a nested emit
(one fuel level lower, supplied by the caller).  A connect beyond
MAX_CONNECTIONS (1000) raises ValueError in the source; the exception
escapes the callback and is caught by the emitting loop, so the remaining
actions of this body are skipped. -/
def actsRun (emitF : Nat → List CB → List CB × List Ev) (d : Nat) :
    List Act → List CB → List CB × List Ev
  | [], st => (st, [])
  | Act.disc t a k :: rest, st =>
      actsRun emitF d rest (signalDisconnect st t a k).1
  | Act.conn cb atFront :: rest, st =>
      if 1000 ≤ st.length then (st, [])
      else actsRun emitF d rest (signalConnect st cb atFront)
  | Act.emitAct :: rest, st =>
      let p := emitF (d + 1) st
      let q := actsRun emitF d rest p.1
      (q.1, p.2 ++ q.2)

/-- The loop body of Signal.emit: iterate over the snapshot taken at emit
start; for each snapshot entry, first disconnect it (by token) when it is a
one-shot, then invoke it, then continue with the rest of the snapshot.
Exceptions inside a callback are caught and logged by the loop, so the
iteration always reaches every snapshot entry. -/
def snapRun (emitF : Nat → List CB → List CB × List Ev) (prog : Nat → List Act) (d : Nat) :
    List CB → List CB → List CB × List Ev
  | [], st => (st, [])
  | cb :: rest, st =>
      let st1 := if cb.once then (signalDisconnect st (CBTarget.tokRef cb.tok) [] []).1 else st
      let p := actsRun emitF d (prog cb.tok) st1
      let q := snapRun emitF prog d rest p.1
      (q.1, (cb.tok, d) :: (p.2 ++ q.2))

/-- Signal.emit with a fuel bound on re-entrant emit depth.  The source
iterates over self._callbacks[:], a copy of the live list taken when emit
begins; the live list is threaded through the loop.  Fuel only truncates
re-entrant emissions nested deeper than the bound; every terminating
concrete execution of the source is reproduced with enough fuel. -/
def emitFuel (prog : Nat → List Act) : Nat → Nat → List CB → List CB × List Ev
  | 0, _, st => (st, [])
  | n + 1, d, st => snapRun (emitFuel prog n) prog d st st

/-- A sequence of top-level emissions, each with its own fuel, traces
concatenated. -/
def emitSeq (prog : Nat → List Act) : List Nat → List CB → List CB × List Ev
  | [], st => (st, [])
  | n :: rest, st =>
      let p := emitFuel prog n 0 st
      let q := emitSeq prog rest p.1
      (q.1, p.2 ++ q.2)

/-- The registered tokens of a callback list. -/
def toks (st : List CB) : List Nat := st.map CB.tok

/-- Number of invocations of token t in a trace. -/
def countTok (t : Nat) (evs : List Ev) : Nat := (evs.filter (fun e => e.1 == t)).length

/-! ## Outcomes of a wrapped unit of work (policy.py, asyncio.py) -/

/-- Outcome of awaiting a task. -/
inductive TaskOutcome where
  | value (v : Int)
  | error (e : Int)
  | cancelled
deriving DecidableEq, Repr

/-- An exception surfacing from an await: an ordinary exception or
asyncio.CancelledError. -/
inductive PyExc where
  | exc (e : Int)
  | cancelledErr
deriving DecidableEq, Repr

/-- A Python value as far as the policies inspect one: the False and True
singletons, None, an integer, or a coroutine object.  Only identity with
the False singleton matters to the cron policy. -/
inductive PyVal where
  | pyFalse
  | pyTrue
  | pyNone
  | pyInt (n : Int)
  | coroObj
deriving DecidableEq, Repr

/-- How one invocation of the wrapped callable f behaves: raise
synchronously, return a plain value, or return a coroutine that on await
raises, is cancelled, or returns a value. -/
inductive FRun where
  | raises
  | returns (v : PyVal)
  | coroRaises
  | coroCancelled
  | coroReturns (v : PyVal)
deriving DecidableEq, Repr

/-! ## policy_replace (policy.py) -/

/-- Everything observable about one call of policy_replace.__call__. -/
structure ReplaceResult where
  cancelRequested : Option Nat
  storedTask : Option Nat
  result : Except PyExc Int
  loggedByPolicy : Bool
deriving Repr

/-- What `await self.task` yields for a given task outcome: the value, or
the re-raised exception, or CancelledError. -/
def awaitTask : TaskOutcome → Except PyExc Int
  | TaskOutcome.value v => Except.ok v
  | TaskOutcome.error e => Except.error (PyExc.exc e)
  | TaskOutcome.cancelled => Except.error PyExc.cancelledErr

/-- policy_replace.__call__: cancel the previous task if any, start a new
task `newId` for this call, await it and hand its outcome straight to the
caller.  The body contains no try/except and no logging. -/
def policyReplaceCall (prevTask : Option Nat) (newId : Nat) (outcome : TaskOutcome) :
    ReplaceResult :=
  { cancelRequested := prevTask
    storedTask := some newId
    result := awaitTask outcome
    loggedByPolicy := false }

/-! ## policy_cron (policy.py) -/

/-- Observable outcome of one run of policy_cron.execute. -/
structure CronExecResult where
  rescheduled : Bool
  loggedByCron : Bool
  crashed : Bool
deriving DecidableEq, Repr

/-- policy_cron.execute: obj = self.func(); if it is a coroutine,
obj = await obj; a bare except catches anything raised so far and logs it;
then `if obj is not False: self.start_next()`.  When f raised
synchronously, obj was never assigned, so that final test raises
UnboundLocalError, which escapes execute (it is logged by detach) and
start_next is not reached. -/
def policyCronExecute : FRun → CronExecResult
  | FRun.raises => { rescheduled := false, loggedByCron := true, crashed := true }
  | FRun.returns v => { rescheduled := v ≠ PyVal.pyFalse, loggedByCron := false, crashed := false }
  | FRun.coroRaises => { rescheduled := true, loggedByCron := true, crashed := false }
  | FRun.coroCancelled => { rescheduled := true, loggedByCron := true, crashed := false }
  | FRun.coroReturns v => { rescheduled := v ≠ PyVal.pyFalse, loggedByCron := false, crashed := false }

/-- Scheduling action taken by a cron or clock scheduling pass.  The claim
under test distinguishes arming the execute timer directly from deferring a
recomputation, so both shapes exist in the action type; which of them the
code produces is for the theorems to settle. -/
inductive CronSchedule where
  | armExecute (secs : Int)
  | deferRecompute (secs : Int)
deriving DecidableEq, Repr

/-- policy_cron.start_next delay computation, from time.localtime() fields.
secs starts at -tm_sec; the first configured minute strictly after the
current minute is used, else wrap to minutes[0] and advance the candidate
hour; then the first configured hour at or after the candidate, else wrap
to hours[0] plus 24. -/
def cronSecs (minutes hours : List Int) (tmHour tmMin tmSec : Int) : Int :=
  let secs0 := -tmSec
  let p :=
    match minutes.find? (fun m => decide (tmMin < m)) with
    | some m => (secs0 + (m - tmMin) * 60, tmHour)
    | none => (secs0 + (minutes.headD 0 - tmMin) * 60, tmHour + 1)
  match hours.find? (fun h => decide (p.2 ≤ h)) with
  | some h => p.1 + (h - tmHour) * 3600
  | none => p.1 + (24 + hours.headD 0 - tmHour) * 3600

/-- policy_cron.start_next: compute secs and pass it directly to
call_later(secs, self.execute).  The source never consults
is_clock_synchronized here; the `synced` parameter records the environment
state the specification quantifies over, and the result does not depend on
it. -/
def cronStartNext (minutes hours : List Int) (tmHour tmMin tmSec : Int)
    (_synced : Bool) : CronSchedule :=
  CronSchedule.armExecute (cronSecs minutes hours tmHour tmMin tmSec)

/-- The default hours configuration range(24). -/
def cronAllHours : List Int := (List.range 24).map (fun n => (n : Int))

/-! ## policy_clock (policy.py) -/

/-- Observable outcome of policy_clock.emit: the state written back
(timer, value) and what happened to f. -/
structure ClockEmitResult where
  timer : Option Int
  value : Int
  invoked : Bool
  rearmed : Bool
  logged : Bool
deriving DecidableEq, Repr

/-- policy_clock.emit(t, log): sets self.timer = None and self.value = 0,
then invokes f (awaiting a coroutine result), catching and logging any
raise.  The parameters carrying the previously armed timer, the stored
value and the target time t are not consulted: there is no comparison of t
against the current time and no re-arming path. -/
def policyClockEmit (_timer0 : Option Int) (_value0 : Int) (_t : Int) (fr : FRun) :
    ClockEmitResult :=
  { timer := none
    value := 0
    invoked := true
    rearmed := false
    logged := match fr with
      | FRun.raises => true
      | FRun.coroRaises => true
      | FRun.coroCancelled => true
      | _ => false }

/-! ## Absolute-time scheduling _call_at (asyncio.py) -/

/-- One decision of the pre-fire loop of _call_at: either sleep some
seconds and recompute from the top, or sleep the final delay and fire. -/
inductive CallAtDecision where
  | sleepRecompute (secs : ℚ)
  | sleepFire (secs : ℚ)
deriving DecidableEq, Repr

/-- The remaining delay: secs = max(timestamp - time.time(), 0.1). -/
def callAtSecs (timestamp now : ℚ) : ℚ := max (timestamp - now) (1 / 10)

/-- One iteration of the _call_at loop. -/
def callAtStep (timestamp now : ℚ) (synced : Bool) : CallAtDecision :=
  let secs := callAtSecs timestamp now
  if synced = false ∧ 90 < secs then CallAtDecision.sleepRecompute 60
  else if 3 * 3600 < secs then
    CallAtDecision.sleepRecompute (min (secs - 3600) (23 * 60 * 60))
  else CallAtDecision.sleepFire secs

/-- How the scheduled callback behaves when _call_at finally fires it:
raise synchronously, return a plain value, or return a coroutine with the
given awaited outcome. -/
inductive CbRun where
  | raises
  | returnsValue
  | coro (outcome : TaskOutcome)
deriving DecidableEq, Repr

/-- What the fire epilogue of _call_at lets escape. -/
structure FireResult where
  propagated : Bool
  logged : Bool
deriving DecidableEq, Repr

/-- The fire epilogue of _call_at: try: detach(callback(...)) except: log.
A synchronous raise is caught and logged in place; a coroutine result is
detached, where detach passes on cancellation silently and logs any other
failure; nothing propagates to the scheduler. -/
def callAtFire : CbRun → FireResult
  | CbRun.raises => { propagated := false, logged := true }
  | CbRun.returnsValue => { propagated := false, logged := false }
  | CbRun.coro (TaskOutcome.value _) => { propagated := false, logged := false }
  | CbRun.coro (TaskOutcome.error _) => { propagated := false, logged := true }
  | CbRun.coro TaskOutcome.cancelled => { propagated := false, logged := false }

/-! ## is_clock_synchronized (asyncio.py) -/

/-- The module-level clock-guard state: `t` is _is_clock_synchronized_t
(0 once the clock is trusted, otherwise the wall-clock time at which the
distrust window ends, boot time plus 180 on a clockless device) and `diff`
is _clock_difference, the wall-minus-monotonic offset captured at process
start. -/
structure GuardState where
  t : Int
  diff : Int
deriving DecidableEq, Repr

/-- is_clock_synchronized queried at wall time `now` and monotonic time
`mono`: trusted state answers True unchanged; an offset drifted by more
than 10 seconds from the captured one flips to trusted permanently; inside
the window the answer is False with no state change; once the window has
elapsed it flips to trusted permanently. -/
def isClockSynchronized (st : GuardState) (now mono : Int) : Bool × GuardState :=
  if st.t = 0 then (true, st)
  else if 10 < (now - mono - st.diff).natAbs then (true, { t := 0, diff := st.diff })
  else if now < st.t then (false, st)
  else (true, { t := 0, diff := st.diff })

/-- A sequence of queries against the guard, threading the state. -/
def guardQuerySeq (st : GuardState) : List (Int × Int) → List Bool × GuardState
  | [] => ([], st)
  | q :: rest =>
      let p := isClockSynchronized st q.1 q.2
      let r := guardQuerySeq p.2 rest
      (p.1 :: r.1, r.2)

/-! ## Signals group (signal.py) -/

/-- One positional argument of the Signals initializer: a dict or Signals
object, a plain string naming a fresh signal, or a two-element tuple
(name, Signal). -/
inductive SigArg where
  | strArg (n : String)
  | pairArg (n : String) (s : Nat)
  | dictArg (entries : List (String × Nat))
deriving DecidableEq, Repr

/-- An exception escaping the Signals initializer. -/
inductive PyErr where
  | nameErrorBasestring
  | typeErr
deriving DecidableEq, Repr

/-- Signals.__init__ over its positional arguments.  Signal objects are
identified by numbers; `fresh` supplies identities for signals created from
string arguments.  The tuple branch evaluates
isinstance(s[0], basestring) before anything else, and the name basestring
does not exist under Python 3, so reaching that branch raises NameError
unconditionally. -/
def signalsInit (fresh : Nat) : List SigArg → Except PyErr (List (String × Nat) × Nat)
  | [] => Except.ok ([], fresh)
  | SigArg.strArg n :: rest =>
      match signalsInit (fresh + 1) rest with
      | Except.ok (entries, fr) => Except.ok ((n, fresh) :: entries, fr)
      | Except.error e => Except.error e
  | SigArg.pairArg _ _ :: _ => Except.error PyErr.nameErrorBasestring
  | SigArg.dictArg es :: rest =>
      match signalsInit fresh rest with
      | Except.ok (entries, fr) => Except.ok (es ++ entries, fr)
      | Except.error e => Except.error e

/-- Signals.subset(*names): build Signals(*[(k, self[k]) for k in names]).
Every requested name becomes a two-element tuple argument; the lookups
self[k] succeed for names the group contains, modelled with lookup on the
ordered entry list. -/
def signalsSubset (g : List (String × Nat)) (names : List String) :
    Except PyErr (List (String × Nat)) :=
  match signalsInit 0 (names.map (fun k => SigArg.pairArg k (((g.lookup k).getD 0)))) with
  | Except.ok (entries, _) => Except.ok entries
  | Except.error e => Except.error e

/-! ## Helper lemmas about the Signal registry -/

theorem signalDisconnect_fst_eq_filter (cbs : List CB) (target : CBTarget)
    (args : List Nat) (kwargs : List (Nat × Nat)) :
    (signalDisconnect cbs target args kwargs).1 =
      cbs.filter (fun cb => ! cbMatches target args kwargs (args.isEmpty && kwargs.isEmpty) cb) := by
  by_cases h :
      (((cbs.filter (fun cb =>
          ! cbMatches target args kwargs (args.isEmpty && kwargs.isEmpty) cb)).length : Int)
        - (cbs.length : Int)) = 0
  · have hl : (cbs.filter (fun cb =>
        ! cbMatches target args kwargs (args.isEmpty && kwargs.isEmpty) cb)).length
        = cbs.length := by omega
    have heq := List.filter_eq_self.mpr (List.filter_length_eq_length.mp hl)
    simp [signalDisconnect, h, heq]
  · simp [signalDisconnect, h]

theorem mem_signalDisconnect_fst {cbs : List CB} {target : CBTarget} {args : List Nat}
    {kwargs : List (Nat × Nat)} {cb : CB} :
    cb ∈ (signalDisconnect cbs target args kwargs).1 ↔
      cb ∈ cbs ∧ cbMatches target args kwargs (args.isEmpty && kwargs.isEmpty) cb = false := by
  rw [signalDisconnect_fst_eq_filter]
  simp [List.mem_filter]

theorem not_mem_toks {t : Nat} {st : List CB} : t ∉ toks st ↔ ∀ cb ∈ st, cb.tok ≠ t := by
  simp [toks]

theorem not_mem_toks_disconnect_tok (st : List CB) (t : Nat) :
    t ∉ toks (signalDisconnect st (CBTarget.tokRef t) [] []).1 := by
  rw [not_mem_toks]
  intro cb hcb
  have h := (mem_signalDisconnect_fst.mp hcb).2
  simpa [cbMatches] using h

theorem not_mem_toks_disconnect {st : List CB} {target : CBTarget} {args : List Nat}
    {kwargs : List (Nat × Nat)} {t : Nat} (h : t ∉ toks st) :
    t ∉ toks (signalDisconnect st target args kwargs).1 := by
  rw [not_mem_toks] at h ⊢
  intro cb hcb
  exact h cb (mem_signalDisconnect_fst.mp hcb).1

theorem not_mem_toks_connect {st : List CB} {cb : CB} {t : Nat} {atFront : Bool}
    (h : t ∉ toks st) (hcb : cb.tok ≠ t) :
    t ∉ toks (signalConnect st cb atFront) := by
  rw [not_mem_toks] at h ⊢
  intro x hx
  by_cases haf : atFront
  · simp [signalConnect, haf] at hx
    rcases hx with rfl | hx
    · exact hcb
    · exact h x hx
  · simp [signalConnect, haf] at hx
    rcases hx with hx | rfl
    · exact h x hx
    · exact hcb

theorem countTok_append (t : Nat) (a b : List Ev) :
    countTok t (a ++ b) = countTok t a + countTok t b := by
  simp [countTok, List.filter_append]

theorem countTok_cons_ne {t : Nat} {e : Ev} (h : e.1 ≠ t) (a : List Ev) :
    countTok t (e :: a) = countTok t a := by
  simp [countTok, List.filter_cons, h]

theorem countTok_cons_eq {t : Nat} {e : Ev} (h : e.1 = t) (a : List Ev) :
    countTok t (e :: a) = countTok t a + 1 := by
  simp [countTok, List.filter_cons, h, Nat.add_comm]

/-! ## Emission lemmas: tokens absent from the registry stay absent and
produce no invocations (given no action reconnects them) -/

theorem actsRun_no_t (emitF : Nat → List CB → List CB × List Ev) (t : Nat)
    (HF : ∀ d st, t ∉ toks st →
      t ∉ toks (emitF d st).1 ∧ countTok t (emitF d st).2 = 0)
    (d : Nat) :
    ∀ (acts : List Act) (st : List CB),
      (∀ cb atFront, Act.conn cb atFront ∈ acts → cb.tok ≠ t) →
      t ∉ toks st →
      t ∉ toks (actsRun emitF d acts st).1 ∧ countTok t (actsRun emitF d acts st).2 = 0 := by
  intro acts
  induction acts with
  | nil => intro st _ hst; exact ⟨hst, rfl⟩
  | cons a rest ih =>
      intro st hconn hst
      have hconn2 : ∀ cb atFront, Act.conn cb atFront ∈ rest → cb.tok ≠ t :=
        fun cb af hm => hconn cb af (List.mem_cons_of_mem _ hm)
      cases a with
      | disc target args kwargs =>
          simp only [actsRun]
          exact ih _ hconn2 (not_mem_toks_disconnect hst)
      | conn cb atFront =>
          simp only [actsRun]
          by_cases hlen : 1000 ≤ st.length
          · simp only [hlen, if_pos]
            exact ⟨hst, rfl⟩
          · simp only [hlen, if_neg, if_false]
            exact ih _ hconn2
              (not_mem_toks_connect hst (hconn cb atFront (List.mem_cons_self _ _)))
      | emitAct =>
          simp only [actsRun]
          have hp := HF (d + 1) st hst
          have hq := ih _ hconn2 hp.1
          exact ⟨hq.1, by rw [countTok_append, hp.2, hq.2]⟩

theorem snapRun_no_t (emitF : Nat → List CB → List CB × List Ev)
    (prog : Nat → List Act) (t : Nat)
    (HF : ∀ d st, t ∉ toks st →
      t ∉ toks (emitF d st).1 ∧ countTok t (emitF d st).2 = 0)
    (hconn : ∀ u cb atFront, Act.conn cb atFront ∈ prog u → cb.tok ≠ t)
    (d : Nat) :
    ∀ (snap st : List CB), t ∉ toks snap → t ∉ toks st →
      t ∉ toks (snapRun emitF prog d snap st).1 ∧
      countTok t (snapRun emitF prog d snap st).2 = 0 := by
  intro snap
  induction snap with
  | nil => intro st _ hst; exact ⟨hst, rfl⟩
  | cons cb rest ih =>
      intro st hsnap hst
      have hcbt : cb.tok ≠ t := (not_mem_toks.mp hsnap) cb (List.mem_cons_self _ _)
      have hrest : t ∉ toks rest := by
        rw [not_mem_toks] at hsnap ⊢
        exact fun x hx => hsnap x (List.mem_cons_of_mem _ hx)
      simp only [snapRun]
      have hst1 : t ∉ toks
          (if cb.once then (signalDisconnect st (CBTarget.tokRef cb.tok) [] []).1 else st) := by
        by_cases ho : cb.once
        · simp only [ho, if_pos]
          exact not_mem_toks_disconnect hst
        · simpa only [ho, if_neg, if_false] using hst
      have hp := actsRun_no_t emitF t HF d (prog cb.tok) _ (fun c af hm => hconn _ c af hm) hst1
      have hq := ih _ hrest hp.1
      exact ⟨hq.1, by rw [countTok_cons_ne hcbt, countTok_append, hp.2, hq.2]⟩

theorem emitFuel_no_t (prog : Nat → List Act) (t : Nat)
    (hconn : ∀ u cb atFront, Act.conn cb atFront ∈ prog u → cb.tok ≠ t) :
    ∀ (n d : Nat) (st : List CB), t ∉ toks st →
      t ∉ toks (emitFuel prog n d st).1 ∧ countTok t (emitFuel prog n d st).2 = 0 := by
  intro n
  induction n with
  | zero => intro d st hst; exact ⟨hst, rfl⟩
  | succ m ih =>
      intro d st hst
      simp only [emitFuel]
      exact snapRun_no_t (emitFuel prog m) prog t (fun d2 st2 h2 => ih d2 st2 h2)
        hconn d st st hst hst

theorem emitSeq_no_t (prog : Nat → List Act) (t : Nat)
    (hconn : ∀ u cb atFront, Act.conn cb atFront ∈ prog u → cb.tok ≠ t) :
    ∀ (fuels : List Nat) (st : List CB), t ∉ toks st →
      countTok t (emitSeq prog fuels st).2 = 0 ∧ t ∉ toks (emitSeq prog fuels st).1 := by
  intro fuels
  induction fuels with
  | nil => intro st hst; exact ⟨rfl, hst⟩
  | cons n rest ih =>
      intro st hst
      simp only [emitSeq]
      have hp := emitFuel_no_t prog t hconn n 0 st hst
      have hq := ih _ hp.1
      exact ⟨by rw [countTok_append, hp.2, hq.1], hq.2⟩

theorem actsRun_no_emit (emitF : Nat → List CB → List CB × List Ev) (d : Nat) :
    ∀ (acts : List Act) (st : List CB), Act.emitAct ∉ acts →
      (actsRun emitF d acts st).2 = [] := by
  intro acts
  induction acts with
  | nil => intro st _; rfl
  | cons a rest ih =>
      intro st hne
      have hna : Act.emitAct ∉ rest := fun hm => hne (List.mem_cons_of_mem _ hm)
      cases a with
      | disc target args kwargs =>
          simp only [actsRun]
          exact ih _ hna
      | conn cb atFront =>
          simp only [actsRun]
          by_cases hlen : 1000 ≤ st.length
          · simp only [hlen, if_pos]
          · simp only [hlen, if_neg, if_false]
            exact ih _ hna
      | emitAct => exact absurd (List.mem_cons_self _ _) hne

/-- Core of the one-shot analysis: a snapshot holding exactly one
registration of token t, flagged once, yields exactly one invocation of t,
and t is gone from the registry afterwards — provided no action connects t
and only t itself may re-enter emit. -/
theorem snapRun_once_exactly (prog : Nat → List Act) (t : Nat)
    (hconn : ∀ u cb atFront, Act.conn cb atFront ∈ prog u → cb.tok ≠ t)
    (hemit : ∀ u, u ≠ t → Act.emitAct ∉ prog u)
    (n d : Nat) :
    ∀ (pre : List CB) (cbt : CB) (post st : List CB),
      cbt.tok = t → cbt.once = true → t ∉ toks pre → t ∉ toks post →
      countTok t (snapRun (emitFuel prog n) prog d (pre ++ cbt :: post) st).2 = 1 ∧
      t ∉ toks (snapRun (emitFuel prog n) prog d (pre ++ cbt :: post) st).1 := by
  intro pre
  induction pre with
  | nil =>
      intro cbt post st htok honce _ hpost
      simp only [List.nil_append, snapRun, honce, if_pos]
      have hst1 : t ∉ toks (signalDisconnect st (CBTarget.tokRef cbt.tok) [] []).1 := by
        rw [htok]
        exact not_mem_toks_disconnect_tok st t
      have HF : ∀ d2 st2, t ∉ toks st2 →
          t ∉ toks (emitFuel prog n d2 st2).1 ∧ countTok t (emitFuel prog n d2 st2).2 = 0 :=
        fun d2 st2 h2 => emitFuel_no_t prog t hconn n d2 st2 h2
      have hp := actsRun_no_t (emitFuel prog n) t HF d (prog cbt.tok) _
        (fun c af hm => hconn _ c af hm) hst1
      have hq := snapRun_no_t (emitFuel prog n) prog t HF hconn d post _ hpost hp.1
      refine ⟨?_, hq.1⟩
      rw [countTok_cons_eq htok, countTok_append, hp.2, hq.2]
  | cons cb pre2 ih =>
      intro cbt post st htok honce hpre hpost
      have hcbt : cb.tok ≠ t := (not_mem_toks.mp hpre) cb (List.mem_cons_self _ _)
      have hpre2 : t ∉ toks pre2 := by
        rw [not_mem_toks] at hpre ⊢
        exact fun x hx => hpre x (List.mem_cons_of_mem _ hx)
      simp only [List.cons_append, snapRun]
      have hp2 := actsRun_no_emit (emitFuel prog n) d (prog cb.tok)
        (if cb.once then (signalDisconnect st (CBTarget.tokRef cb.tok) [] []).1 else st)
        (hemit cb.tok hcbt)
      have hq := ih cbt post
        ((actsRun (emitFuel prog n) d (prog cb.tok)
          (if cb.once then (signalDisconnect st (CBTarget.tokRef cb.tok) [] []).1 else st)).1)
        htok honce hpre2 hpost
      refine ⟨?_, hq.2⟩
      rw [countTok_cons_ne hcbt, countTok_append, hp2]
      simpa [countTok] using hq.1

/-! ## Emission lemmas: events carry the nesting depth at which they were
invoked, so the current pass is recoverable from the full trace -/

theorem actsRun_depth (emitF : Nat → List CB → List CB × List Ev) (d : Nat)
    (HF : ∀ st, ∀ e ∈ (emitF (d + 1) st).2, d + 1 ≤ e.2) :
    ∀ (acts : List Act) (st : List CB), ∀ e ∈ (actsRun emitF d acts st).2, d + 1 ≤ e.2 := by
  intro acts
  induction acts with
  | nil => intro st e he; simp [actsRun] at he
  | cons a rest ih =>
      intro st e he
      cases a with
      | disc target args kwargs =>
          simp only [actsRun] at he
          exact ih _ e he
      | conn cb atFront =>
          by_cases hlen : 1000 ≤ st.length
          · simp [actsRun, hlen] at he
          · simp only [actsRun, hlen, if_neg, if_false] at he
            exact ih _ e he
      | emitAct =>
          simp only [actsRun] at he
          rcases List.mem_append.mp he with h1 | h2
          · exact HF st e h1
          · exact ih _ e h2

theorem snapRun_depth (emitF : Nat → List CB → List CB × List Ev)
    (prog : Nat → List Act) (d : Nat)
    (HF : ∀ st, ∀ e ∈ (emitF (d + 1) st).2, d + 1 ≤ e.2) :
    ∀ (snap st : List CB), ∀ e ∈ (snapRun emitF prog d snap st).2, d ≤ e.2 := by
  intro snap
  induction snap with
  | nil => intro st e he; simp [snapRun] at he
  | cons cb rest ih =>
      intro st e he
      simp only [snapRun] at he
      rcases List.mem_cons.mp he with h1 | h2
      · rw [h1]
      · rcases List.mem_append.mp h2 with h3 | h4
        · exact Nat.le_of_succ_le (actsRun_depth emitF d HF _ _ e h3)
        · exact ih _ e h4

theorem emitFuel_depth (prog : Nat → List Act) :
    ∀ (n d : Nat) (st : List CB), ∀ e ∈ (emitFuel prog n d st).2, d ≤ e.2 := by
  intro n
  induction n with
  | zero => intro d st e he; simp [emitFuel] at he
  | succ m ih =>
      intro d st e he
      simp only [emitFuel] at he
      exact snapRun_depth (emitFuel prog m) prog d (fun st2 e2 he2 => ih (d + 1) st2 e2 he2)
        st st e he

/-- The events of the current pass, those at the current depth, are exactly
the snapshot tokens, in snapshot order, whatever the callback bodies do to
the live registry. -/
theorem snapRun_depth_filter (emitF : Nat → List CB → List CB × List Ev)
    (prog : Nat → List Act) (d : Nat)
    (HF : ∀ st, ∀ e ∈ (emitF (d + 1) st).2, d + 1 ≤ e.2) :
    ∀ (snap st : List CB),
      ((snapRun emitF prog d snap st).2.filter (fun e => e.2 == d)).map Prod.fst = toks snap := by
  intro snap
  induction snap with
  | nil => intro st; simp [snapRun, toks]
  | cons cb rest ih =>
      intro st
      simp only [snapRun]
      rw [List.filter_cons]
      have hhead : (((cb.tok, d) : Ev).2 == d) = true := by simp
      rw [if_pos hhead, List.filter_append]
      have hp : ((actsRun emitF d (prog cb.tok)
          (if cb.once then (signalDisconnect st (CBTarget.tokRef cb.tok) [] []).1 else st)).2.filter
            (fun e => e.2 == d)) = [] := by
        rw [List.filter_eq_nil_iff]
        intro e he
        have hd := actsRun_depth emitF d HF _ _ e he
        simp only [beq_iff_eq]
        omega
      rw [hp, List.nil_append, List.map_cons, ih]
      simp [toks]

/-- Claim C1: emit invokes every callback that was registered at the
instant emit began, in registration order, against the snapshot taken at
emit start — whatever connecting, disconnecting or re-entrant emitting the
callback bodies perform, the invocations of the current pass (the events at
the current nesting depth) are exactly the snapshot tokens in order.  In
particular, with 3 connected callbacks where the first disconnects the
third, the second and the third still fire. -/
theorem C1_emit_snapshot_order (prog : Nat → List Act) (n : Nat) (st : List CB) :
    ((emitFuel prog (n + 1) 0 st).2.filter (fun e => e.2 == 0)).map Prod.fst = toks st ∧
    emitFuel (fun u => if u == 1 then [Act.disc (CBTarget.tokRef 3) [] []] else []) 1 0
        [⟨1, 11, [], [], false⟩, ⟨2, 12, [], [], false⟩, ⟨3, 13, [], [], false⟩] =
      ([⟨1, 11, [], [], false⟩, ⟨2, 12, [], [], false⟩], [(1, 0), (2, 0), (3, 0)]) := by
  constructor
  · simp only [emitFuel]
    exact snapRun_depth_filter (emitFuel prog n) prog 0
      (fun st2 e2 he2 => emitFuel_depth prog n 1 st2 e2 he2) st st
  · decide

/-- Claim C3 counterexample: two connected callbacks, the first a plain
callback whose body disconnects itself and then re-enters emit, the second
a one-shot; a single top-level emission invokes the one-shot twice, once
inside the re-entrant pass (which also disconnects it) and once more from
the outer snapshot, which still contains it. -/
theorem C3_once_reentrant_double_fire :
    countTok 2 (emitFuel
        (fun u => if u == 1 then [Act.disc (CBTarget.tokRef 1) [] [], Act.emitAct] else [])
        2 0 [⟨1, 11, [], [], false⟩, ⟨2, 12, [], [], true⟩]).2 = 2 ∧
    (emitFuel (fun u => if u == 1 then [Act.disc (CBTarget.tokRef 1) [] [], Act.emitAct] else [])
        2 0 [⟨1, 11, [], [], false⟩, ⟨2, 12, [], [], true⟩]).2 = [(1, 0), (2, 1), (2, 0)] := by
  exact ⟨by decide, by decide⟩

/-- Claim C3 amended: a callback registered once with connect_once is
removed before its own invocation, and across any sequence of emissions it
is invoked exactly once and never reappears — provided no callback body
reconnects it and no callback other than the one-shot itself re-enters
emit while it is pending (a re-entrant emit from another callback can
invoke it a second time from the outer snapshot). -/
theorem C3_once_exactly_amended (prog : Nat → List Act) (t : Nat)
    (pre post : List CB) (cbt : CB) (n : Nat) (fuels : List Nat)
    (hconn : ∀ u cb atFront, Act.conn cb atFront ∈ prog u → cb.tok ≠ t)
    (hemit : ∀ u, u ≠ t → Act.emitAct ∉ prog u)
    (htok : cbt.tok = t) (honce : cbt.once = true)
    (hpre : t ∉ toks pre) (hpost : t ∉ toks post) :
    countTok t (emitSeq prog ((n + 1) :: fuels) (pre ++ cbt :: post)).2 = 1 ∧
    t ∉ toks (emitSeq prog ((n + 1) :: fuels) (pre ++ cbt :: post)).1 := by
  simp only [emitSeq, emitFuel]
  have hmain := snapRun_once_exactly prog t hconn hemit n 0 pre cbt post
    (pre ++ cbt :: post) htok honce hpre hpost
  have hrest := emitSeq_no_t prog t hconn fuels _ hmain.2
  exact ⟨by rw [countTok_append, hmain.1, hrest.1], hrest.2⟩

/-- Claim C3 amended, witnessed: a lone one-shot callback with an inert
body fires exactly once over two emissions and is gone afterwards. -/
theorem C3_once_exactly_witness :
    countTok 7 (emitSeq (fun _ => []) [1, 1] [⟨7, 1, [], [], true⟩]).2 = 1 ∧
    7 ∉ toks (emitSeq (fun _ => []) [1, 1] [⟨7, 1, [], [], true⟩]).1 :=
  C3_once_exactly_amended (fun _ => []) 7 [] [] ⟨7, 1, [], [], true⟩ 0 [1]
    (fun _ cb af hm => absurd hm (List.not_mem_nil _))
    (fun _ _ => List.not_mem_nil _)
    rfl rfl (by simp [toks]) (by simp [toks])

/-- Claim C2 (code bug witnessed): disconnect with no extra arguments does
remove every registration of the callback regardless of its bound
arguments, and with arguments it removes only the exact matches; but at
the concrete failing input, one registration removed, the returned count
is -1, computed as len(new_callbacks) - len(old), not the nonnegative
number of callbacks removed promised by the claim and the docstring. -/
theorem C2_disconnect_count_bug :
    (∀ (cbs : List CB) (f : Nat),
        (signalDisconnect cbs (CBTarget.fnRef f) [] []).1 =
          cbs.filter (fun cb => ! (cb.fn == f))) ∧
    (∀ (cbs : List CB) (f x : Nat) (a : List Nat) (k : List (Nat × Nat)),
        (signalDisconnect cbs (CBTarget.fnRef f) (x :: a) k).1 =
          cbs.filter (fun cb => ! (cb.fn == f && ((x :: a) == cb.args && k == cb.kwargs)))) ∧
    signalDisconnect [⟨0, 5, [], [], false⟩] (CBTarget.fnRef 5) [] [] = ([], -1) := by
  refine ⟨?_, ?_, by decide⟩
  · intro cbs f
    rw [signalDisconnect_fst_eq_filter]
    refine List.filter_congr ?_
    intro cb _
    simp [cbMatches]
  · intro cbs f x a k
    rw [signalDisconnect_fst_eq_filter]
    refine List.filter_congr ?_
    intro cb _
    simp [cbMatches]

/-- Claim C4 counterexample: when the newly started task raises, the
policy call neither logs nor suppresses the failure; the exception is
handed to the caller. -/
theorem C4_replace_raise_propagates :
    (policyReplaceCall none 0 (TaskOutcome.error 7)).result = Except.error (PyExc.exc 7) ∧
    ¬ (policyReplaceCall none 0 (TaskOutcome.error 7)).loggedByPolicy = true := by
  exact ⟨rfl, by simp [policyReplaceCall]⟩

/-- Claim C4 amended: policy_replace cancels the previous task, stores the
new one, and returns the awaited outcome of the new task verbatim: a raise
propagates to the caller as that exception, nothing is logged by the
policy. -/
theorem C4_replace_amended (prevTask : Option Nat) (newId : Nat) (e : Int) :
    policyReplaceCall prevTask newId (TaskOutcome.error e) =
      { cancelRequested := prevTask
        storedTask := some newId
        result := Except.error (PyExc.exc e)
        loggedByPolicy := false } := rfl

/-- Claim C5 counterexample: a synchronous f that raises does not lead to
the next occurrence being scheduled; execute itself crashes on the unbound
result variable. -/
theorem C5_cron_sync_raise_stops :
    policyCronExecute FRun.raises =
      { rescheduled := false, loggedByCron := true, crashed := true } ∧
    ¬ (policyCronExecute FRun.raises).rescheduled = true := by
  exact ⟨rfl, by decide⟩

/-- Claim C5 amended: an exception raised by an awaited coroutine f
(including cancellation) is caught, logged and treated as continue; the
boolean False return value (and only identity with False) is terminal; any
other return value schedules the next occurrence; but a synchronous f that
raises leaves the result variable unbound, so execute crashes with
UnboundLocalError after logging, and no next occurrence is armed. -/
theorem C5_cron_execute_amended (v : PyVal) :
    (policyCronExecute FRun.coroRaises).rescheduled = true ∧
    (policyCronExecute FRun.coroCancelled).rescheduled = true ∧
    ((policyCronExecute (FRun.returns v)).rescheduled = true ↔ v ≠ PyVal.pyFalse) ∧
    ((policyCronExecute (FRun.coroReturns v)).rescheduled = true ↔ v ≠ PyVal.pyFalse) ∧
    (policyCronExecute FRun.raises).rescheduled = false ∧
    (policyCronExecute FRun.raises).crashed = true ∧
    (policyCronExecute FRun.coroRaises).crashed = false := by
  refine ⟨rfl, rfl, ?_, ?_, rfl, rfl, rfl⟩ <;> simp [policyCronExecute]

/-- Claim C6 counterexample: with the target a full 1000 seconds in the
future when the timer fires, emit still clears the stored value and timer
and invokes f; there is no re-check and no re-arming. -/
theorem C6_clock_emit_no_recheck :
    (10 : Int) < 1000 - 0 ∧
    (policyClockEmit (some 1000) 1000 1000 (FRun.returns PyVal.pyNone)).invoked = true ∧
    (policyClockEmit (some 1000) 1000 1000 (FRun.returns PyVal.pyNone)).rearmed = false ∧
    (policyClockEmit (some 1000) 1000 1000 (FRun.returns PyVal.pyNone)).timer = none ∧
    (policyClockEmit (some 1000) 1000 1000 (FRun.returns PyVal.pyNone)).value = 0 := by
  refine ⟨by norm_num, rfl, rfl, rfl, rfl⟩

/-- Claim C6 amended: when the armed timer fires, policy_clock.emit does
not compare the target against the current time at all: it unconditionally
clears the stored value and timer and invokes f, logging and dropping any
raise (including from an awaited coroutine). -/
theorem C6_clock_emit_amended (timer0 : Option Int) (value0 t : Int) (fr : FRun) :
    (policyClockEmit timer0 value0 t fr).timer = none ∧
    (policyClockEmit timer0 value0 t fr).value = 0 ∧
    (policyClockEmit timer0 value0 t fr).invoked = true ∧
    (policyClockEmit timer0 value0 t fr).rearmed = false ∧
    ((policyClockEmit timer0 value0 t fr).logged = true ↔
      fr = FRun.raises ∨ fr = FRun.coroRaises ∨ fr = FRun.coroCancelled) := by
  refine ⟨rfl, rfl, rfl, rfl, ?_⟩
  cases fr <;> simp [policyClockEmit]

/-- Claim C7 counterexample: cron configured for minute 0 of every hour,
started at 05:30:00 with the clock reported unsynchronized, computes the
1800 second delay (which exceeds 90 seconds) and arms the execute timer
directly; it does not defer recomputation by 60 seconds. -/
theorem C7_cron_no_distrust_check :
    cronStartNext [0] cronAllHours 5 30 0 false = CronSchedule.armExecute 1800 ∧
    (90 : Int) < 1800 ∧
    cronStartNext [0] cronAllHours 5 30 0 false ≠ CronSchedule.deferRecompute 60 := by
  refine ⟨by decide, by norm_num, by decide⟩

/-- Claim C7 amended: for minute 0 of every hour, a scheduling pass at any
local time HH:30:00 computes the next fire 1800 seconds later, at
(HH+1):00:00; but start_next hands that delay directly to call_later and
applies no clock-distrust or long-horizon check, whether or not the clock
is synchronized. -/
theorem C7_cron_nextfire_amended (hh : Nat) (hlt : hh < 24) (synced : Bool) :
    cronSecs [0] cronAllHours hh 30 0 = 1800 ∧
    cronStartNext [0] cronAllHours hh 30 0 synced = CronSchedule.armExecute 1800 := by
  have hall : ∀ k : Nat, k < 24 → cronSecs [0] cronAllHours (k : Int) 30 0 = 1800 := by decide
  have h1 := hall hh hlt
  exact ⟨h1, by simp [cronStartNext, h1]⟩

/-- Claim C7 amended, witnessed at 05:30:00 with the clock
unsynchronized. -/
theorem C7_cron_nextfire_witness :
    cronSecs [0] cronAllHours 5 30 0 = 1800 ∧
    cronStartNext [0] cronAllHours 5 30 0 false = CronSchedule.armExecute 1800 :=
  C7_cron_nextfire_amended 5 (by norm_num) false

/-- Claim C8: each iteration of the _call_at loop computes
remaining = max(target - now, 0.1), never at or below zero; an
unsynchronized clock with remaining above 90 seconds waits a fixed 60
seconds and recomputes; a remaining above 3 hours waits
min(remaining - 1h, 23h) and recomputes; otherwise the timer is armed for
remaining and the work fires as a detached unit whose failures are caught
and logged, never propagated. -/
theorem C8_call_at_loop (timestamp now : ℚ) (synced : Bool) :
    (1 / 10 : ℚ) ≤ callAtSecs timestamp now ∧
    (synced = false → 90 < callAtSecs timestamp now →
      callAtStep timestamp now synced = CallAtDecision.sleepRecompute 60) ∧
    (¬ (synced = false ∧ 90 < callAtSecs timestamp now) →
      3 * 3600 < callAtSecs timestamp now →
      callAtStep timestamp now synced =
        CallAtDecision.sleepRecompute (min (callAtSecs timestamp now - 3600) (23 * 60 * 60))) ∧
    (¬ (synced = false ∧ 90 < callAtSecs timestamp now) →
      callAtSecs timestamp now ≤ 3 * 3600 →
      callAtStep timestamp now synced = CallAtDecision.sleepFire (callAtSecs timestamp now)) ∧
    (∀ r : CbRun, (callAtFire r).propagated = false) ∧
    (∀ r : CbRun, (callAtFire r).logged = true ↔
      r = CbRun.raises ∨ ∃ e, r = CbRun.coro (TaskOutcome.error e)) := by
  refine ⟨le_max_right _ _, ?_, ?_, ?_, ?_, ?_⟩
  · intro hs hgt
    simp [callAtStep, hs, hgt]
  · intro hno hgt
    rw [callAtStep]
    rw [if_neg hno, if_pos hgt]
  · intro hno hle
    rw [callAtStep]
    rw [if_neg hno, if_neg (by simpa using hle)]
  · intro r
    cases r with
    | coro outcome => cases outcome <;> rfl
    | _ => rfl
  · intro r
    cases r with
    | raises => simp [callAtFire]
    | returnsValue => simp [callAtFire]
    | coro outcome => cases outcome <;> simp [callAtFire]

/-- Claim C8, witnessed: an unsynchronized clock 100 seconds before the
target waits 60 seconds and recomputes, and the minimum tick bound holds
there. -/
theorem C8_call_at_loop_witness :
    callAtStep 100 0 false = CallAtDecision.sleepRecompute 60 ∧
    (1 / 10 : ℚ) ≤ callAtSecs 100 0 :=
  ⟨(C8_call_at_loop 100 0 false).2.1 rfl (by norm_num [callAtSecs]),
   (C8_call_at_loop 100 0 false).1⟩

theorem isClockSynchronized_true_t (st : GuardState) (now mono : Int)
    (h : (isClockSynchronized st now mono).1 = true) :
    (isClockSynchronized st now mono).2.t = 0 := by
  by_cases h0 : st.t = 0
  · simp [isClockSynchronized, h0]
  · by_cases h1 : 10 < (now - mono - st.diff).natAbs
    · simp [isClockSynchronized, h0, h1]
    · by_cases h2 : now < st.t
      · simp [isClockSynchronized, h0, h1, h2] at h
      · simp [isClockSynchronized, h0, h1, h2]

theorem guardQuerySeq_trusted (st : GuardState) (h : st.t = 0) :
    ∀ queries : List (Int × Int),
      (guardQuerySeq st queries).1 = queries.map (fun _ => true) ∧
      (guardQuerySeq st queries).2 = st := by
  intro queries
  induction queries with
  | nil => exact ⟨rfl, rfl⟩
  | cons q rest ih =>
      simp only [guardQuerySeq, isClockSynchronized, h, if_pos]
      simpa using ih

/-- Claim C9: the clock-synchronization query always reports synchronized
in the trusted state with no state change; whenever it reports
synchronized the state becomes (or already is) the trusted one, so every
subsequent query also reports synchronized; on a clockless profile it
reports not synchronized, unchanged, while inside the distrust window with
the offset within 10 seconds of the captured one; an offset drift above 10
seconds, or the window elapsing, flips it to trusted permanently; the only
mutation is that single transition, the captured offset is never
touched. -/
theorem C9_clock_guard (st : GuardState) (now mono : Int) :
    (st.t = 0 → isClockSynchronized st now mono = (true, st)) ∧
    ((isClockSynchronized st now mono).1 = true → (isClockSynchronized st now mono).2.t = 0) ∧
    ((isClockSynchronized st now mono).1 = false → isClockSynchronized st now mono = (false, st)) ∧
    (st.t ≠ 0 → 10 < (now - mono - st.diff).natAbs →
      isClockSynchronized st now mono = (true, { t := 0, diff := st.diff })) ∧
    (st.t ≠ 0 → (now - mono - st.diff).natAbs ≤ 10 → now < st.t →
      isClockSynchronized st now mono = (false, st)) ∧
    (st.t ≠ 0 → (now - mono - st.diff).natAbs ≤ 10 → st.t ≤ now →
      isClockSynchronized st now mono = (true, { t := 0, diff := st.diff })) ∧
    ((isClockSynchronized st now mono).2.diff = st.diff) ∧
    (∀ queries : List (Int × Int), (isClockSynchronized st now mono).1 = true →
      (guardQuerySeq (isClockSynchronized st now mono).2 queries).1 =
        queries.map (fun _ => true)) := by
  refine ⟨?_, ?_, ?_, ?_, ?_, ?_, ?_, ?_⟩
  · intro h
    simp [isClockSynchronized, h]
  · exact isClockSynchronized_true_t st now mono
  · intro h
    by_cases h0 : st.t = 0
    · simp [isClockSynchronized, h0] at h
    · by_cases h1 : 10 < (now - mono - st.diff).natAbs
      · simp [isClockSynchronized, h0, h1] at h
      · by_cases h2 : now < st.t
        · simp [isClockSynchronized, h0, h1, h2]
        · simp [isClockSynchronized, h0, h1, h2] at h
  · intro h0 hdrift
    rw [isClockSynchronized, if_neg h0, if_pos hdrift]
  · intro h0 hdrift hwin
    rw [isClockSynchronized, if_neg h0, if_neg (by omega), if_pos hwin]
  · intro h0 hdrift hwin
    rw [isClockSynchronized, if_neg h0, if_neg (by omega), if_neg (by omega)]
  · by_cases h0 : st.t = 0
    · simp [isClockSynchronized, h0]
    · by_cases h1 : 10 < (now - mono - st.diff).natAbs
      · simp [isClockSynchronized, h0, h1]
      · by_cases h2 : now < st.t
        · simp [isClockSynchronized, h0, h1, h2]
        · simp [isClockSynchronized, h0, h1, h2]
  · intro queries h
    exact (guardQuerySeq_trusted _ (isClockSynchronized_true_t st now mono h) queries).1

/-- Claim C9, witnessed: a clockless profile inside the window with no
offset jump answers not synchronized and leaves the state alone; the
trusted state always answers synchronized. -/
theorem C9_clock_guard_witness :
    isClockSynchronized { t := 200, diff := 5 } 100 95 = (false, { t := 200, diff := 5 }) ∧
    isClockSynchronized { t := 0, diff := 5 } 100 95 = (true, { t := 0, diff := 5 }) :=
  ⟨(C9_clock_guard { t := 200, diff := 5 } 100 95).2.2.2.2.1 (by decide) (by decide) (by decide),
   (C9_clock_guard { t := 0, diff := 5 } 100 95).1 rfl⟩

/-- Claim C10 (code bug witnessed): subset on a group containing the
requested names does not return the projected group; the tuple branch of
the Signals initializer evaluates the Python 2 name basestring, which does
not exist under Python 3, so every nonempty subset raises NameError. -/
theorem C10_subset_raises_nameerror :
    signalsSubset [("a", 0), ("b", 1)] ["b"] = Except.error PyErr.nameErrorBasestring ∧
    signalsSubset [("a", 0), ("b", 1)] ["b", "a"] = Except.error PyErr.nameErrorBasestring ∧
    signalsSubset [("a", 0), ("b", 1)] [] = Except.ok [] := by
  exact ⟨rfl, rfl, rfl⟩

end KaaToolbox
